import Mathlib

/-!
Shallow embedding of the distributed KVStore server core
(`src/kvstore/kvstore_dist_server.h`, `src/my_thread_pool.cc`) together with
theorems settling the specification claims.  Machine integers are modelled by
`ℕ`/`ℤ` (all quantities involved stay far from the 32/64-bit overflow
boundaries under the claims' hypotheses), tensors by a free term algebra that
records exactly the engine operations the server performs, and clock readings
by `ℚ` (idealised real-valued time).
-/

namespace MxKV

/-! ### Command / request classification (source lines 50-96) -/

/-- Command kinds, same order as the frontend (source lines 50-57). -/
inductive CommandType
  | kController
  | kSetMultiPrecision
  | kStopServer
  | kSyncMode
  | kSetGradientCompression
  | kSetProfilerParams
deriving DecidableEq, Repr

/-- Request types (source line 59). -/
inductive RequestType
  | kDefaultPushPull
  | kRowSparsePushPull
  | kCompressedPushPull
deriving DecidableEq, Repr

/-- Numeric value of a `RequestType` (the `static_cast<int>` in source line 75). -/
def RequestType.val : RequestType → ℕ
  | .kDefaultPushPull => 0
  | .kRowSparsePushPull => 1
  | .kCompressedPushPull => 2

/-- Inverse of `static_cast<RequestType>` on in-range values (source line 93). -/
def decodeRequestType : ℕ → Option RequestType
  | 0 => some .kDefaultPushPull
  | 1 => some .kRowSparsePushPull
  | 2 => some .kCompressedPushPull
  | _ => none

/-- Cantor pairing of `(requestType, dtype)` (source lines 74-77).  The source
computes in `int`; the claims restrict to non-negative inputs whose Cantor
value does not overflow, so `ℕ` is faithful. -/
def GetCommandType (m d : ℕ) : ℕ := ((m + d) * (m + d + 1)) / 2 + d

/-- `GetCommandType` applied to an actual `RequestType` (source line 74). -/
def GetCommandTypeR (r : RequestType) (d : ℕ) : ℕ := GetCommandType r.val d

/-- Cantor unpairing (source lines 85-96).  The source computes
`w = floor((sqrt(8*cmd+1)-1)/2)` with a double-precision square root; for any
`cmd` in `int` range `8*cmd+1 < 2^34`, the correctly rounded double square
root of an integer in that range never crosses an integer boundary (the gap
between `sqrt n` and the nearest integer is at least `2^-18` for non-squares
while a half-ulp is about `2^-36`), so `Nat.sqrt` together with truncating
division models it exactly. -/
def DepairDataHandleType (cmd : ℕ) : ℕ × ℕ :=
  let w := (Nat.sqrt (8 * cmd + 1) - 1) / 2
  let t := (w * w + w) / 2
  let y := cmd - t
  let x := w - y
  (x, y)

/-! ### Tensor and server data model

`NDArray` is a free term algebra over the engine operations the server
performs.  A default-constructed `NDArray` (`is_none() == true`) is
`noneArr`; mxnet's default-constructed array reports `dtype_ == -1` and an
undefined storage type.  mshadow dtype codes: `kFloat32 = 0`, `kFloat64 = 1`,
`kFloat16 = 2`, `kUint8 = 3`, `kInt32 = 4`, `kInt8 = 5`, `kInt64 = 6`. -/

def kFloat32 : ℤ := 0

inductive StorageType
  | defaultStorage
  | rowSparseStorage
  | undefinedStorage
deriving DecidableEq, Repr

/-- Free term algebra of tensors: `alloc` is an `NDArray(...)` constructor
call (for row-sparse storage with `delay_alloc = true` this is a zero-row,
i.e. all-zero, tensor), `recv` wraps an inbound payload, `copyInto dst src`
is `CopyFromTo(src, &dst)` (result replaces `dst`, keeping `dst`'s dtype),
`plus a b` is elementwise addition written to `a`'s location, and
`updated key grad dst` is the optimizer call `updater_(key, grad, &dst)`. -/
inductive NDArray
  | noneArr
  | alloc (stype : StorageType) (shape : List ℤ) (delayAlloc : Bool) (dtype : ℤ)
  | recv (id : ℕ) (stype : StorageType) (shape : List ℤ) (dtype : ℤ)
  | copyInto (dst src : NDArray)
  | plus (a b : NDArray)
  | updated (key : ℤ) (grad dst : NDArray)
deriving DecidableEq, Repr

def NDArray.isNone : NDArray → Bool
  | noneArr => true
  | _ => false

def NDArray.dtype : NDArray → ℤ
  | noneArr => -1
  | alloc _ _ _ d => d
  | recv _ _ _ d => d
  | copyInto dst _ => dst.dtype
  | plus a _ => a.dtype
  | updated _ _ dst => dst.dtype

def NDArray.stype : NDArray → StorageType
  | noneArr => .undefinedStorage
  | alloc st _ _ _ => st
  | recv _ st _ _ => st
  | copyInto dst _ => dst.stype
  | plus a _ => a.stype
  | updated _ _ dst => dst.stype

def NDArray.shape : NDArray → List ℤ
  | noneArr => []
  | alloc _ sh _ _ => sh
  | recv _ _ sh _ => sh
  | copyInto dst _ => dst.shape
  | plus a _ => a.shape
  | updated _ _ dst => dst.shape

/-- The fields of `ps::KVMeta` the server reads. -/
structure ReqMeta where
  sender : ℤ := 0
  timestamp : ℤ := 0
  push : Bool := false
  pull : Bool := false
  numMerge : ℕ := 1
deriving DecidableEq, Repr

/-- Per-key update buffer (source lines 201-206). -/
structure UpdateBuf where
  request : List ReqMeta := []
  merged : NDArray := .noneArr
  tempArray : NDArray := .noneArr
deriving DecidableEq, Repr

/-- Association-list update (insert or overwrite). -/
def aset {α : Type} (l : List (ℤ × α)) (k : ℤ) (v : α) : List (ℤ × α) :=
  match l with
  | [] => [(k, v)]
  | (k1, v1) :: rest => if k1 = k then (k, v) :: rest else (k1, v1) :: aset rest k v

def alookup {α : Type} (l : List (ℤ × α)) (k : ℤ) : Option α :=
  match l with
  | [] => none
  | (k1, v1) :: rest => if k1 = k then some v1 else alookup rest k

/-- Server state: the member variables of `KVStoreDistServer` that the
embedded operations touch.  `operator[]` on the maps default-constructs a
missing entry; lookups below return the same defaults, so the physical
insertion of a default entry is observationally invisible and not tracked. -/
structure ServerState where
  syncMode : Bool := false
  multiPrecision : Bool := false
  numWorkers : ℕ := 1
  updaterSet : Bool := true
  store : List (ℤ × NDArray) := []
  storeRealt : List (ℤ × NDArray) := []
  updateBuf : List (ℤ × UpdateBuf) := []
  storeV : List (ℤ × ℤ) := []
deriving DecidableEq, Repr

def getStore (s : ServerState) (k : ℤ) : NDArray := (alookup s.store k).getD .noneArr

def getRealt (s : ServerState) (k : ℤ) : NDArray := (alookup s.storeRealt k).getD .noneArr

def getBuf (s : ServerState) (k : ℤ) : UpdateBuf := (alookup s.updateBuf k).getD {}

def getV (s : ServerState) (k : ℤ) : ℤ := (alookup s.storeV k).getD 0

def setStore (s : ServerState) (k : ℤ) (v : NDArray) : ServerState :=
  { s with store := aset s.store k v }

def setRealt (s : ServerState) (k : ℤ) (v : NDArray) : ServerState :=
  { s with storeRealt := aset s.storeRealt k v }

def setBuf (s : ServerState) (k : ℤ) (v : UpdateBuf) : ServerState :=
  { s with updateBuf := aset s.updateBuf k v }

def setV (s : ServerState) (k : ℤ) (v : ℤ) : ServerState :=
  { s with storeV := aset s.storeV k v }

/-- The `(request_type, dtype)` pair carried by a data request. -/
structure DataHandleType where
  requestType : RequestType
  dtype : ℤ
deriving DecidableEq, Repr

/-- `has_multi_precision_copy` (source lines 448-450). -/
def hasMultiPrecisionCopy (s : ServerState) (t : DataHandleType) : Bool :=
  s.multiPrecision && !(t.dtype == kFloat32)

/-- Fatal errors: each corresponds to a `CHECK`-style assertion in the
source that kills the offending request/process. -/
inductive SrvError
  | NotInitialized        -- pull before first push (source lines 621, 488, 803)
  | UnsupportedMode       -- LeMethod with a non-dense request (source line 419)
  | ConfigurationRace     -- SetMultiPrecision with pushes underway (source line 275)
  | AsyncNoUpdater        -- async mode without an optimizer (source lines 466, 515)
  | NotSyncMode           -- CHECK(sync_mode_) on a repeated merge (source lines 783, 951)
  | BadRequestType        -- DefaultAutoPull on a non-dense type (source line 485)
  | MalformedRequest      -- arity / emptiness checks (source lines 657, 721, 755)
deriving DecidableEq, Repr

/-- Observable actions the server performs while handling a request. -/
inductive Event
  | updaterRun (key : ℤ) (update dest : NDArray)
  | copyMerged (key : ℤ)
  | response (req : ReqMeta)
  | pullResponse (req : ReqMeta) (data : NDArray)
  | autoPullUpdate (version : ℤ) (req : ReqMeta) (data : NDArray)
deriving DecidableEq, Repr

/-! ### Update dispatchers (source lines 452-556) -/

/-- `DefaultStorageResponse` (source lines 796-815): reply to a dense pull
with the raw bytes of `store_[key]`; `CHECK(!stored.is_none())`. -/
def defaultStorageResponse (t : DataHandleType) (key : ℤ) (req : ReqMeta)
    (s : ServerState) : Except SrvError Event :=
  let stored := getStore s key
  if stored.isNone then .error .NotInitialized
  else .ok (.pullResponse req stored)

/-- `DefaultAutoPull` (source lines 479-498): unsolicited pull reply stamped
with a version. -/
def defaultAutoPull (t : DataHandleType) (key : ℤ) (version : ℤ) (req : ReqMeta)
    (s : ServerState) : Except SrvError Event :=
  if t.requestType ≠ RequestType.kDefaultPushPull then .error .BadRequestType
  else
    let stored := getStore s key
    if stored.isNone then .error .NotInitialized
    else .ok (.autoPullUpdate version req stored)

/-- The updater step shared by both dispatchers (source lines 460-468 and
509-518): run `updater_(key, update, &stored)` on the serial executor, or, if
no updater is set, `CHECK(sync_mode_)` and fall back to
`CopyFromTo(merged, &stored)`. -/
def runUpdaterStep (s : ServerState) (key : ℤ) (update stored merged : NDArray) :
    Except SrvError (NDArray × List Event) :=
  if s.updaterSet then
    .ok (NDArray.updated key update stored, [Event.updaterRun key update stored])
  else if s.syncMode then
    .ok (NDArray.copyInto stored merged, [Event.copyMerged key])
  else .error .AsyncNoUpdater

/-- Reply loop of `ApplyUpdates` when some requester wants a pull (source
lines 537-541): only the requests with the pull flag get a
`DefaultStorageResponse`; the others get nothing in this branch. -/
def respondPulls (t : DataHandleType) (key : ℤ) (reqs : List ReqMeta)
    (s : ServerState) : Except SrvError (List Event) :=
  match reqs with
  | [] => .ok []
  | r :: rest =>
    if r.pull then
      match defaultStorageResponse t key r s with
      | .error e => .error e
      | .ok ev => (respondPulls t key rest s).map (fun evs => ev :: evs)
    else respondPulls t key rest s

/-- `ApplyUpdates` (source lines 500-556).  In sync mode nothing happens
until `request.size() == NumWorkers()`; on completion the optimizer consumes
`merged` (async: `temp_array`), pulls are answered, and `request` is
cleared. -/
def applyUpdates (t : DataHandleType) (key : ℤ) (s : ServerState) :
    Except SrvError (ServerState × List Event) :=
  let buf := getBuf s key
  if !s.syncMode || buf.request.length == s.numWorkers then
    let mpc := hasMultiPrecisionCopy s t
    let stored := if mpc then getRealt s key else getStore s key
    let update := if s.syncMode then buf.merged else buf.tempArray
    match runUpdaterStep s key update stored buf.merged with
    | .error e => .error e
    | .ok (stored1, ev1) =>
      let s1 := if mpc then setRealt s key stored1 else setStore s key stored1
      let hasPull := buf.request.any (fun r => r.pull)
      if hasPull then
        let s2 := if mpc then setStore s1 key (NDArray.copyInto (getStore s1 key) stored1)
                  else s1
        match respondPulls t key buf.request s2 with
        | .error e => .error e
        | .ok evs =>
          let s3 := setBuf s2 key { getBuf s2 key with request := [] }
          .ok (s3, ev1 ++ evs)
      else
        let evs := buf.request.map Event.response
        let s2 := setBuf s1 key { getBuf s1 key with request := [] }
        let s3 := if mpc then setStore s2 key (NDArray.copyInto (getStore s2 key) stored1)
                  else s2
        .ok (s3, ev1 ++ evs)
  else
    .ok (s, [])

/-- `ApplyUpdatesDefault` (source lines 452-477), the TSEngine variant: same
barrier condition, but it clears `request`, increments `store_v_[key]` and
answers with `DefaultAutoPull`. -/
def applyUpdatesDefault (t : DataHandleType) (key : ℤ) (req : ReqMeta)
    (s : ServerState) : Except SrvError (ServerState × List Event) :=
  let buf := getBuf s key
  if !s.syncMode || buf.request.length == s.numWorkers then
    let mpc := hasMultiPrecisionCopy s t
    let stored := if mpc then getRealt s key else getStore s key
    let update := if s.syncMode then buf.merged else buf.tempArray
    match runUpdaterStep s key update stored buf.merged with
    | .error e => .error e
    | .ok (stored1, ev1) =>
      let s1 := if mpc then setRealt s key stored1 else setStore s key stored1
      let s2 := setBuf s1 key { getBuf s1 key with request := [] }
      let s3 := setV s2 key (getV s2 key + 1)
      let s4 := if mpc then setStore s3 key (NDArray.copyInto (getStore s3 key) stored1)
                else s3
      match defaultAutoPull t key (getV s4 key) req s4 with
      | .error e => .error e
      | .ok ev => .ok (s4, ev1 ++ [ev])
  else
    .ok (s, [])

/-- `mshadow_sizeof` byte width of a dtype code (mshadow base.h; the
arguments arising here are non-negative and small). -/
def mshadowSizeof (d : ℤ) : ℤ :=
  if d = 0 then 4 else if d = 1 then 8 else if d = 2 then 2 else if d = 3 then 1
  else if d = 4 then 4 else if d = 5 then 1 else if d = 6 then 8 else 0

/-- `DecodeKey` (source lines 972-975): subtract this server's key-range
start from the wire key. -/
def DecodeKey (rangeBegin key : ℤ) : ℤ := key - rangeBegin

/-- Concrete byte-level view of the primary tensor used by the pull-response
paths: its shape and its raw row-major byte buffer. -/
structure StoredView where
  shape : List ℤ
  bytes : List ℤ
deriving DecidableEq, Repr

/-- `TShape::ProdShape(1, ndim)`: product of all dimensions but the first. -/
def unitLenOf (shape : List ℤ) : ℤ := (shape.drop 1).foldl (fun a b => a * b) 1

/-- `memcpy` of `len` bytes from offset `off` of a byte buffer. -/
def sliceBytes (data : List ℤ) (off len : ℕ) : List ℤ := (data.drop off).take len

/-- Overwrite `seg.length` bytes of `buf` starting at `start`
(`SArray::segment(begin, end).CopyFrom`). -/
def setSegment (buf : List ℤ) (start : ℕ) (seg : List ℤ) : List ℤ :=
  buf.take start ++ seg ++ buf.drop (start + seg.length)

/-- Byte offset of the row requested by `keys[i]` (source lines 632-634):
`row_id = DecodeKey(keys[i]) - master_key`, offset `row_id * unit_size`. -/
def rspRowOffset (rangeBegin masterKey : ℤ) (keys : List ℤ) (unitSize : ℕ)
    (i : ℕ) : ℤ :=
  (DecodeKey rangeBegin (keys.getD i 0) - masterKey) * unitSize

/-- The gather loop of `RowSparsePullResponse` (source lines 629-638): the
response buffer is resized to `num_rows * unit_size` (zero-filled here; the
source leaves it uninitialized but overwrites every byte) and row `i` is
copied to segment `[(i-1)*unit_size, i*unit_size)`. -/
def rowSparsePullVals (rangeBegin masterKey : ℤ) (keys data : List ℤ)
    (unitSize numRows : ℕ) : List ℤ :=
  (List.range numRows).foldl
    (fun buf j =>
      setSegment buf (j * unitSize)
        (sliceBytes data (rspRowOffset rangeBegin masterKey keys unitSize (j + 1)).toNat
          unitSize))
    (List.replicate (numRows * unitSize) 0)

/-- A `ps::KVPairs` response. -/
structure KVResponse where
  keys : List ℤ
  lens : List ℤ
  vals : List ℤ
deriving DecidableEq, Repr

/-- `RowSparsePullResponse` (source lines 602-645). -/
def rowSparsePullResponse (t : DataHandleType) (rangeBegin masterKey : ℤ)
    (numRows : ℕ) (reqKeys : List ℤ) (stored : Option StoredView) :
    Except SrvError KVResponse :=
  if numRows = 0 then
    .ok { keys := reqKeys, lens := List.replicate reqKeys.length 0, vals := [] }
  else
    match stored with
    | none => .error .NotInitialized
    | some st =>
      let unitLen := unitLenOf st.shape
      let numBytes := mshadowSizeof t.dtype
      let unitSize := unitLen * numBytes
      .ok { keys := reqKeys
            lens := (match reqKeys with
              | [] => []
              | _ :: rest => 0 :: List.replicate rest.length unitLen)
            vals := rowSparsePullVals rangeBegin masterKey reqKeys st.bytes
              unitSize.toNat numRows }

/-- The `unit_size = unit_len * num_bytes` of the pull path (source lines
623-625). -/
def rspUnitSize (t : DataHandleType) (st : StoredView) : ℕ :=
  (unitLenOf st.shape * mshadowSizeof t.dtype).toNat

/-- Specification-side description of the gathered response: the
concatenation, over the requested offsets, of `u`-byte slices of the primary
buffer. -/
def gatherRows (data : List ℤ) (offs : List ℕ) (u : ℕ) : List ℤ :=
  match offs with
  | [] => []
  | o :: rest => sliceBytes data o u ++ gatherRows data rest u

/-- Whether a dispatcher invocation consumed the merged/temp buffer by
invoking the optimizer (or the no-updater copy fallback). -/
def mergedConsumed (evs : List Event) : Bool :=
  evs.any fun e =>
    match e with
    | .updaterRun _ _ _ => true
    | .copyMerged _ => true
    | _ => false

/-- One iteration of the loop in `CreateMultiPrecisionCopies` (source lines
250-281): for a stored entry whose dtype is not float32, allocate the float32
`store_realt_` copy, recreate a non-none `merged` buffer as float32,
`CHECK(update.request.size() == 0)` (the ConfigurationRace assertion), and
copy the stored tensor into the new float32 copy. -/
def createMPEntry (s : ServerState) (key : ℤ) (stored : NDArray) :
    Except SrvError ServerState :=
  if stored.dtype ≠ kFloat32 then
    let realt :=
      if stored.stype = StorageType.rowSparseStorage then
        NDArray.alloc .rowSparseStorage stored.shape true kFloat32
      else NDArray.alloc .defaultStorage stored.shape false kFloat32
    let s1 := setRealt s key realt
    let buf := getBuf s1 key
    let s2 :=
      if !buf.merged.isNone then
        setBuf s1 key { buf with merged :=
          (if buf.merged.stype = StorageType.rowSparseStorage then
            NDArray.alloc .rowSparseStorage buf.merged.shape true kFloat32
          else NDArray.alloc .defaultStorage buf.merged.shape false kFloat32) }
      else s1
    if (getBuf s2 key).request.length ≠ 0 then .error .ConfigurationRace
    else .ok (setRealt s2 key (NDArray.copyInto (getRealt s2 key) stored))
  else .ok s

/-- The loop of `CreateMultiPrecisionCopies` over the stored entries. -/
def createMPGo (s : ServerState) : List (ℤ × NDArray) → Except SrvError ServerState
  | [] => .ok s
  | (k, nd) :: rest =>
    match createMPEntry s k nd with
    | .error e => .error e
    | .ok s1 => createMPGo s1 rest

/-- `CreateMultiPrecisionCopies` (source lines 249-285). -/
def createMultiPrecisionCopies (s : ServerState) : Except SrvError ServerState :=
  createMPGo s s.store

/-- The `kSetMultiPrecision` arm of `CommandHandle` (source lines 225-231):
only a first-time transition flips `multi_precision_` and creates the
copies. -/
def commandSetMultiPrecision (s : ServerState) : Except SrvError ServerState :=
  if !s.multiPrecision then
    createMultiPrecisionCopies { s with multiPrecision := true }
  else .ok s

/-- The `ps::Control` markers `DataHandleEx` inspects under LeMethod
(source lines 420-422); `NONE` is any other inbound data message. -/
inductive ControlCmd
  | LOCAL_AGGREGATION
  | INIT
  | NONE
deriving DecidableEq, Repr

/-- Which handler `DataHandleEx` routes a data request to. -/
inductive Dispatch
  | handledLocalAggregation
  | handledInitAndDistribute
  | droppedUnderLeMethod
  | handledRowSparse
  | handledCompressed
  | handledDefault
  | unknownRequestType
deriving DecidableEq, Repr

/-- `DataHandleEx` (source lines 414-446): the request type is unpaired from
`req_meta.cmd`; when `ENABLE_LEMETHOD` is set, a non-dense request trips
`CHECK(type.requestType == kDefaultPushPull)` (UnsupportedMode) and a dense
one is routed by its control marker (any other message is silently dropped);
without LeMethod the three request types go to their handlers.  An
out-of-range unpaired value matches no `switch` case and does nothing. -/
def dataHandleEx (lemethod : Bool) (cmd : ℕ) (cc : ControlCmd) :
    Except SrvError Dispatch :=
  match decodeRequestType (DepairDataHandleType cmd).1 with
  | none => .ok .unknownRequestType
  | some rt =>
    if lemethod then
      if rt ≠ RequestType.kDefaultPushPull then .error .UnsupportedMode
      else
        match cc with
        | .LOCAL_AGGREGATION => .ok .handledLocalAggregation
        | .INIT => .ok .handledInitAndDistribute
        | .NONE => .ok .droppedUnderLeMethod
    else
      match rt with
      | .kRowSparsePushPull => .ok .handledRowSparse
      | .kCompressedPushPull => .ok .handledCompressed
      | .kDefaultPushPull => .ok .handledDefault

/-- `InitRowSparseStored` (source lines 647-705): allocate the row-sparse
primary (float32 under multi-precision), populate the full row index and copy
the received payload in, mirror into `store_` under multi-precision, and ack
the request. -/
def initRowSparseStored (t : DataHandleType) (masterKey : ℤ) (numRows : ℕ)
    (recvId : ℕ) (unitLen : ℤ) (req : ReqMeta) (s : ServerState) :
    Except SrvError (ServerState × List Event) :=
  if unitLen ≤ 0 then .error .MalformedRequest
  else
    let mpc := hasMultiPrecisionCopy s t
    let dshape : List ℤ := [(numRows : ℤ), unitLen]
    let recved := NDArray.recv recvId .defaultStorage dshape t.dtype
    let stored0 := NDArray.alloc .rowSparseStorage dshape true
      (if mpc then kFloat32 else t.dtype)
    let stored1 := NDArray.copyInto stored0 recved
    if mpc then
      let s1 := setRealt s masterKey stored1
      let s2 := setStore s1 masterKey
        (NDArray.copyInto (NDArray.alloc .rowSparseStorage dshape true t.dtype) stored1)
      .ok (s2, [Event.response req])
    else
      .ok (setStore s masterKey stored1, [Event.response req])

/-- `AccumulateRowSparseGrads` (source lines 570-600): under multi-precision
first cast the payload into `temp_array`; then compute the row-sparse
elementwise sum of the contribution and `merged` into a fresh output and copy
it back into `merged`. -/
def accumulateRowSparseGrads (t : DataHandleType) (recved : NDArray)
    (s : ServerState) (key : ℤ) : ServerState :=
  let buf := getBuf s key
  let mpc := hasMultiPrecisionCopy s t
  let buf1 :=
    if mpc then { buf with tempArray := NDArray.copyInto buf.tempArray recved } else buf
  let toMerge := if mpc then buf1.tempArray else recved
  setBuf s key
    { buf1 with merged := (NDArray.copyInto buf1.merged (NDArray.plus toMerge buf1.merged)) }

/-- Push half of `DataHandleRowSparse` (source lines 707-794).  `lens` is
`req_data.lens`; `recvId` identifies the payload bytes; the pull half is
modelled separately by `rowSparsePullResponse`. -/
def dataHandleRowSparsePush (t : DataHandleType) (masterKey : ℤ) (numRows : ℕ)
    (recvId : ℕ) (lens : List ℤ) (req : ReqMeta) (s : ServerState) :
    Except SrvError (ServerState × List Event) :=
  if lens.length = 0 then .error .MalformedRequest
  else if lens.getD 0 0 ≠ 0 then .error .MalformedRequest
  else
    let stored := getStore s masterKey
    if stored.isNone then
      if numRows = 0 then .error .MalformedRequest
      else
        initRowSparseStored t masterKey numRows recvId
          (lens.getD 1 0 / mshadowSizeof t.dtype) req s
    else
      let mpc := hasMultiPrecisionCopy s t
      let buf := getBuf s masterKey
      let buf1 :=
        if s.syncMode && buf.merged.isNone then
          { buf with merged := (NDArray.alloc .rowSparseStorage stored.shape true
              (if mpc then kFloat32 else t.dtype)) }
        else buf
      let buf2 :=
        if mpc && buf1.tempArray.isNone then
          { buf1 with tempArray :=
              (NDArray.alloc .rowSparseStorage stored.shape false kFloat32) }
        else buf1
      let s1 := setBuf s masterKey buf2
      if numRows = 0 then
        if s.syncMode then
          let buf3 :=
            if buf2.request = [] then
              { buf2 with merged := (NDArray.alloc .rowSparseStorage stored.shape true
                  (if mpc then kFloat32 else t.dtype)) }
            else buf2
          let s2 := setBuf s masterKey { buf3 with request := buf3.request ++ [req] }
          applyUpdates t masterKey s2
        else
          .ok (s1, [Event.response req])
      else
        let unitLen := lens.getD 1 0 / mshadowSizeof t.dtype
        if unitLen ≤ 0 then .error .MalformedRequest
        else
          let recved := NDArray.recv recvId .rowSparseStorage stored.shape t.dtype
          if buf2.request = [] then
            let buf3 :=
              if s.syncMode then { buf2 with merged := NDArray.copyInto buf2.merged recved }
              else if mpc then
                { buf2 with tempArray := NDArray.copyInto buf2.tempArray recved }
              else { buf2 with tempArray := recved }
            let s2 := setBuf s masterKey { buf3 with request := buf3.request ++ [req] }
            applyUpdates t masterKey s2
          else if !s.syncMode then .error .NotSyncMode
          else
            let s2 := accumulateRowSparseGrads t recved s1 masterKey
            let s3 := setBuf s2 masterKey
              { getBuf s2 masterKey with request := (getBuf s2 masterKey).request ++ [req] }
            applyUpdates t masterKey s3

/-- An async-mode multi-precision state with an initialized row-sparse key 7
and an empty update buffer: an R = 0 push allocates the `temp_array` staging
tensor before acking. -/
def wstateC5 : ServerState :=
  { syncMode := false
    multiPrecision := true
    numWorkers := 2
    updaterSet := true
    store := [(7, .alloc .rowSparseStorage [4, 2] true 2)]
    storeRealt := [(7, .alloc .rowSparseStorage [4, 2] true 0)]
    updateBuf := []
    storeV := [] }

/-- A state with one float32 key whose pending list is nonempty: the
ConfigurationRace assertion does not inspect float32-dtyped keys. -/
def wstateC4 : ServerState :=
  { syncMode := true
    multiPrecision := false
    numWorkers := 2
    updaterSet := true
    store := [(0, .alloc .defaultStorage [3] false 0)]
    storeRealt := []
    updateBuf := [(0, { request := [{ push := true }]
                        merged := .alloc .defaultStorage [3] false 0
                        tempArray := .noneArr })]
    storeV := [] }

/-- A concrete sync-mode server state with one worker and one pending push
for key 5, used to instantiate the barrier theorems. -/
def wstateC2 : ServerState :=
  { syncMode := true
    multiPrecision := false
    numWorkers := 1
    updaterSet := true
    store := [(5, .alloc .defaultStorage [3] false 0)]
    storeRealt := []
    updateBuf := [(5, { request := [{ push := true }]
                        merged := .alloc .defaultStorage [3] false 0
                        tempArray := .noneArr })]
    storeV := [] }

/-! ### Serial executor (source lines 101-160) -/

/-- A queue block of the serial `Executor`: `Stop` enqueues a block whose
function is null (`Exec(Func())`, source lines 147-149); ordinary `Exec`
calls enqueue a task. -/
inductive ExecBlock
  | task (id : ℕ)
  | poison
deriving DecidableEq, Repr

/-- What `Executor::Start` (source lines 106-123) processes out of the
sequence of enqueued blocks: blocks run in FIFO order, each processed
block's promise is fulfilled, and the first null block ends the loop — the
consumer thread exits, so nothing after the first poison is ever
processed. -/
def processedBlocks : List ExecBlock → List ExecBlock
  | [] => []
  | .poison :: _ => [.poison]
  | .task i :: rest => .task i :: processedBlocks rest

/-- `Executor::Exec` returns iff the consumer fulfils its block's promise
(`fut.wait()`, source line 141), i.e. iff the i-th enqueued block is among
the processed ones.  `Stop` is `Exec` of a poison block. -/
def execReturns (queue : List ExecBlock) (i : ℕ) : Prop :=
  i < (processedBlocks queue).length

/-! ### Model distribution (source lines 336-372) -/

/-- Truncation toward zero of a rational: the semantics of the C++
`int(...)` cast at source line 366 (the `double` intermediate is modelled by
exact rational arithmetic). -/
def ratTrunc (q : ℚ) : ℤ := q.num.tdiv q.den

/-- The bandwidth sample at source lines 361-366:
`int((startTime - endTime).count() * 1000000)`, both clock readings in
seconds. -/
def bandwidthOf (startTime endTime : ℚ) : ℤ :=
  ratTrunc ((startTime - endTime) * 1000000)

/-- One query of the receiver-picking oracle: the arguments the loop passes
to `GetModelReceiver` (source line 354). -/
structure OracleCall where
  lastBandwidth : ℤ
  lastReceiver : ℤ
  iteration : ℤ
deriving DecidableEq, Repr

/-- The send/measure loop of `ModelDistribution` (source lines 353-371),
instrumented to record each oracle query.  `oracle` is the external
`GetModelReceiver`; `times r` is the pair of clock readings (seconds) taken
around the r-th send/reply round trip; `fuel` bounds how many loop
iterations are considered. -/
def mdLoop (QUIT : ℤ) (oracle : ℤ → ℤ → ℤ → ℤ) (times : ℕ → ℚ × ℚ)
    (iteration : ℤ) : ℕ → ℤ → ℤ → ℕ → List OracleCall
  | 0, _, _, _ => []
  | fuel + 1, lastBw, lastRcv, round =>
    let receiver := oracle lastBw lastRcv iteration
    if receiver = QUIT then [⟨lastBw, lastRcv, iteration⟩]
    else
      ⟨lastBw, lastRcv, iteration⟩ ::
        mdLoop QUIT oracle times iteration fuel
          (bandwidthOf (times round).1 (times round).2) receiver (round + 1)

/-- `ModelDistribution` entry (source lines 336-340): `iteration_` is
incremented once and the loop starts with `lastBandwidth` and `lastReceiver`
both `ps::Van::UNKNOWN`. -/
def modelDistribution (QUIT UNKNOWN : ℤ) (oracle : ℤ → ℤ → ℤ → ℤ)
    (times : ℕ → ℚ × ℚ) (iteration : ℤ) (fuel : ℕ) : List OracleCall :=
  mdLoop QUIT oracle times (iteration + 1) fuel UNKNOWN UNKNOWN 0

/-! ## Theorems -/

theorem depair_getCommandType (m d : ℕ) :
    DepairDataHandleType (GetCommandType m d) = (m, d) := by
  have hd : d ≤ m + d := by omega
  have heven : (m + d) * (m + d + 1) / 2 * 2 = (m + d) * (m + d + 1) :=
    Nat.div_mul_cancel (Nat.even_mul_succ_self (m + d)).two_dvd
  set s : ℕ := m + d with hs
  set T : ℕ := s * (s + 1) / 2 with hT
  have hcmd : GetCommandType m d = T + d := rfl
  have hsq1 : (2 * s + 1) * (2 * s + 1) = 8 * T + 1 := by
    calc (2 * s + 1) * (2 * s + 1) = 4 * (s * (s + 1)) + 1 := by ring
    _ = 4 * (T * 2) + 1 := by rw [heven]
    _ = 8 * T + 1 := by ring
  have hsq3 : (2 * s + 3) * (2 * s + 3) = 8 * T + 8 * s + 9 := by
    calc (2 * s + 3) * (2 * s + 3) = 4 * (s * (s + 1)) + 8 * s + 9 := by ring
    _ = 4 * (T * 2) + 8 * s + 9 := by rw [heven]
    _ = 8 * T + 8 * s + 9 := by ring
  have hlo : 2 * s + 1 ≤ Nat.sqrt (8 * (T + d) + 1) :=
    Nat.le_sqrt.mpr (by omega)
  have hhi : Nat.sqrt (8 * (T + d) + 1) < 2 * s + 3 :=
    Nat.sqrt_lt.mpr (by omega)
  have hw : (Nat.sqrt (8 * (T + d) + 1) - 1) / 2 = s := by omega
  have e3 : s * s + s = T * 2 := by
    have hssum : s * (s + 1) = s * s + s := by ring
    omega
  have ht2 : (s * s + s) / 2 = T := by
    rw [e3]; exact Nat.mul_div_cancel T (by norm_num)
  rw [hcmd]
  simp only [DepairDataHandleType, hw, ht2]
  simp only [Prod.mk.injEq]
  omega

/-- C10: Cantor depairing is a left inverse of pairing: for every request type
and every non-negative dtype, `DepairDataHandleType (GetCommandType r d)`
recovers exactly the request type value and the dtype. -/
theorem cantor_depair_left_inverse (r : RequestType) (d : ℕ) :
    DepairDataHandleType (GetCommandTypeR r d) = (r.val, d) :=
  depair_getCommandType r.val d

/-! ### Map lemmas -/

theorem alookup_aset {α : Type} (l : List (ℤ × α)) (k k' : ℤ) (v : α) :
    alookup (aset l k v) k' = if k = k' then some v else alookup l k' := by
  induction l with
  | nil => simp [aset, alookup]
  | cons hd tl ih =>
    obtain ⟨k1, v1⟩ := hd
    by_cases h1 : k1 = k
    · subst h1
      simp only [aset, if_pos rfl, alookup]
      split_ifs <;> rfl
    · simp only [aset, if_neg h1, alookup, ih]
      by_cases h2 : k1 = k' <;> by_cases h3 : k = k' <;> simp_all

@[simp] theorem getStore_setStore (s : ServerState) (k k' : ℤ) (v : NDArray) :
    getStore (setStore s k v) k' = if k = k' then v else getStore s k' := by
  simp only [getStore, setStore, alookup_aset]
  split_ifs <;> rfl

@[simp] theorem getRealt_setRealt (s : ServerState) (k k' : ℤ) (v : NDArray) :
    getRealt (setRealt s k v) k' = if k = k' then v else getRealt s k' := by
  simp only [getRealt, setRealt, alookup_aset]
  split_ifs <;> rfl

@[simp] theorem getBuf_setBuf (s : ServerState) (k k' : ℤ) (v : UpdateBuf) :
    getBuf (setBuf s k v) k' = if k = k' then v else getBuf s k' := by
  simp only [getBuf, setBuf, alookup_aset]
  split_ifs <;> rfl

@[simp] theorem getV_setV (s : ServerState) (k k' : ℤ) (v : ℤ) :
    getV (setV s k v) k' = if k = k' then v else getV s k' := by
  simp only [getV, setV, alookup_aset]
  split_ifs <;> rfl

@[simp] theorem getStore_setBuf (s : ServerState) (k k' : ℤ) (v : UpdateBuf) :
    getStore (setBuf s k v) k' = getStore s k' := rfl

@[simp] theorem getStore_setRealt (s : ServerState) (k k' : ℤ) (v : NDArray) :
    getStore (setRealt s k v) k' = getStore s k' := rfl

@[simp] theorem getStore_setV (s : ServerState) (k k' : ℤ) (v : ℤ) :
    getStore (setV s k v) k' = getStore s k' := rfl

@[simp] theorem getBuf_setStore (s : ServerState) (k k' : ℤ) (v : NDArray) :
    getBuf (setStore s k v) k' = getBuf s k' := rfl

@[simp] theorem getBuf_setRealt (s : ServerState) (k k' : ℤ) (v : NDArray) :
    getBuf (setRealt s k v) k' = getBuf s k' := rfl

@[simp] theorem getBuf_setV (s : ServerState) (k k' : ℤ) (v : ℤ) :
    getBuf (setV s k v) k' = getBuf s k' := rfl

@[simp] theorem getRealt_setStore (s : ServerState) (k k' : ℤ) (v : NDArray) :
    getRealt (setStore s k v) k' = getRealt s k' := rfl

@[simp] theorem getRealt_setBuf (s : ServerState) (k k' : ℤ) (v : UpdateBuf) :
    getRealt (setBuf s k v) k' = getRealt s k' := rfl

@[simp] theorem getRealt_setV (s : ServerState) (k k' : ℤ) (v : ℤ) :
    getRealt (setV s k v) k' = getRealt s k' := rfl

@[simp] theorem getV_setStore (s : ServerState) (k k' : ℤ) (v : NDArray) :
    getV (setStore s k v) k' = getV s k' := rfl

@[simp] theorem getV_setRealt (s : ServerState) (k k' : ℤ) (v : NDArray) :
    getV (setRealt s k v) k' = getV s k' := rfl

@[simp] theorem getV_setBuf (s : ServerState) (k k' : ℤ) (v : UpdateBuf) :
    getV (setBuf s k v) k' = getV s k' := rfl

@[simp] theorem storeV_setStore (s : ServerState) (k : ℤ) (v : NDArray) :
    (setStore s k v).storeV = s.storeV := rfl

@[simp] theorem storeV_setRealt (s : ServerState) (k : ℤ) (v : NDArray) :
    (setRealt s k v).storeV = s.storeV := rfl

@[simp] theorem storeV_setBuf (s : ServerState) (k : ℤ) (v : UpdateBuf) :
    (setBuf s k v).storeV = s.storeV := rfl

@[simp] theorem syncMode_setStore (s : ServerState) (k : ℤ) (v : NDArray) :
    (setStore s k v).syncMode = s.syncMode := rfl

@[simp] theorem syncMode_setRealt (s : ServerState) (k : ℤ) (v : NDArray) :
    (setRealt s k v).syncMode = s.syncMode := rfl

@[simp] theorem syncMode_setBuf (s : ServerState) (k : ℤ) (v : UpdateBuf) :
    (setBuf s k v).syncMode = s.syncMode := rfl

@[simp] theorem store_setRealt (s : ServerState) (k : ℤ) (v : NDArray) :
    (setRealt s k v).store = s.store := rfl

@[simp] theorem store_setBuf (s : ServerState) (k : ℤ) (v : UpdateBuf) :
    (setBuf s k v).store = s.store := rfl

@[simp] theorem store_setV (s : ServerState) (k : ℤ) (v : ℤ) :
    (setV s k v).store = s.store := rfl

@[simp] theorem multiPrecision_setStore (s : ServerState) (k : ℤ) (v : NDArray) :
    (setStore s k v).multiPrecision = s.multiPrecision := rfl

@[simp] theorem multiPrecision_setRealt (s : ServerState) (k : ℤ) (v : NDArray) :
    (setRealt s k v).multiPrecision = s.multiPrecision := rfl

@[simp] theorem multiPrecision_setBuf (s : ServerState) (k : ℤ) (v : UpdateBuf) :
    (setBuf s k v).multiPrecision = s.multiPrecision := rfl

@[simp] theorem numWorkers_setStore (s : ServerState) (k : ℤ) (v : NDArray) :
    (setStore s k v).numWorkers = s.numWorkers := rfl

@[simp] theorem numWorkers_setRealt (s : ServerState) (k : ℤ) (v : NDArray) :
    (setRealt s k v).numWorkers = s.numWorkers := rfl

@[simp] theorem numWorkers_setBuf (s : ServerState) (k : ℤ) (v : UpdateBuf) :
    (setBuf s k v).numWorkers = s.numWorkers := rfl

@[simp] theorem updaterSet_setStore (s : ServerState) (k : ℤ) (v : NDArray) :
    (setStore s k v).updaterSet = s.updaterSet := rfl

@[simp] theorem updaterSet_setRealt (s : ServerState) (k : ℤ) (v : NDArray) :
    (setRealt s k v).updaterSet = s.updaterSet := rfl

@[simp] theorem updaterSet_setBuf (s : ServerState) (k : ℤ) (v : UpdateBuf) :
    (setBuf s k v).updaterSet = s.updaterSet := rfl

/-! ### Claim C2: the sync-mode barrier -/

theorem respondPulls_ok (t : DataHandleType) (key : ℤ) (reqs : List ReqMeta)
    (s : ServerState) (h : (getStore s key).isNone = false) :
    respondPulls t key reqs s =
      .ok (reqs.filterMap fun r =>
        if r.pull then some (Event.pullResponse r (getStore s key)) else none) := by
  induction reqs with
  | nil => rfl
  | cons r rest ih =>
    simp only [respondPulls, defaultStorageResponse, h, Bool.false_eq_true, if_false,
      List.filterMap_cons]
    by_cases hp : r.pull <;> simp [hp, ih, Except.map]

theorem respondPulls_isOk (t : DataHandleType) (key : ℤ) (reqs : List ReqMeta)
    (s : ServerState) (h : (getStore s key).isNone = false) :
    ∃ evs, respondPulls t key reqs s = .ok evs :=
  ⟨_, respondPulls_ok t key reqs s h⟩

theorem applyUpdates_not_completed (t : DataHandleType) (key : ℤ) (s : ServerState)
    (hsync : s.syncMode = true)
    (hn : (getBuf s key).request.length ≠ s.numWorkers) :
    applyUpdates t key s = .ok (s, []) := by
  simp [applyUpdates, hsync, hn]

theorem applyUpdates_completed (t : DataHandleType) (key : ℤ) (s : ServerState)
    (hcond : s.syncMode = false ∨ (getBuf s key).request.length = s.numWorkers)
    (hud : s.updaterSet = true ∨ s.syncMode = true) :
    ∃ s1 evs, applyUpdates t key s = .ok (s1, evs) ∧ mergedConsumed evs = true
      ∧ (getBuf s1 key).request = [] ∧ s1.storeV = s.storeV := by
  rcases hcond with hF | hn
  · have hu : s.updaterSet = true := by
      rcases hud with h | h
      · exact h
      · rw [h] at hF; cases hF
    by_cases hp : ((getBuf s key).request.any fun r => r.pull) = true <;>
      by_cases hm : hasMultiPrecisionCopy s t = true <;>
      simp [applyUpdates, hF, runUpdaterStep, hu, hp, hm, respondPulls_ok,
        NDArray.isNone, mergedConsumed] <;>
      refine ⟨_, _, ⟨rfl, rfl⟩, ?_, ?_, ?_⟩ <;> simp
  · by_cases hu : s.updaterSet = true
    · by_cases hp : ((getBuf s key).request.any fun r => r.pull) = true <;>
        by_cases hm : hasMultiPrecisionCopy s t = true <;>
        simp [applyUpdates, hn, runUpdaterStep, hu, hp, hm, respondPulls_ok,
          NDArray.isNone, mergedConsumed] <;>
        refine ⟨_, _, ⟨rfl, rfl⟩, ?_, ?_, ?_⟩ <;> simp
    · have hs : s.syncMode = true := by
        rcases hud with h | h
        · exact absurd h hu
        · exact h
      replace hu : s.updaterSet = false := by simpa using hu
      by_cases hp : ((getBuf s key).request.any fun r => r.pull) = true <;>
        by_cases hm : hasMultiPrecisionCopy s t = true <;>
        simp [applyUpdates, hn, hs, runUpdaterStep, hu, hp, hm, respondPulls_ok,
          NDArray.isNone, mergedConsumed] <;>
        refine ⟨_, _, ⟨rfl, rfl⟩, ?_, ?_, ?_⟩ <;> simp

theorem applyUpdatesDefault_not_completed (t : DataHandleType) (key : ℤ) (req : ReqMeta)
    (s : ServerState) (hsync : s.syncMode = true)
    (hn : (getBuf s key).request.length ≠ s.numWorkers) :
    applyUpdatesDefault t key req s = .ok (s, []) := by
  simp [applyUpdatesDefault, hsync, hn]

theorem applyUpdatesDefault_completed (t : DataHandleType) (key : ℤ) (req : ReqMeta)
    (s : ServerState) (ht : t.requestType = RequestType.kDefaultPushPull)
    (hcond : s.syncMode = false ∨ (getBuf s key).request.length = s.numWorkers)
    (hud : s.updaterSet = true ∨ s.syncMode = true) :
    ∃ s1 evs, applyUpdatesDefault t key req s = .ok (s1, evs) ∧ mergedConsumed evs = true
      ∧ (getBuf s1 key).request = [] ∧ getV s1 key = getV s key + 1
      ∧ ∀ k2, k2 ≠ key → getV s1 k2 = getV s k2 := by
  rcases hcond with hF | hn
  · have hu : s.updaterSet = true := by
      rcases hud with h | h
      · exact h
      · rw [h] at hF; cases hF
    by_cases hm : hasMultiPrecisionCopy s t = true <;>
      simp [applyUpdatesDefault, hF, runUpdaterStep, hu, hm, defaultAutoPull, ht,
        NDArray.isNone, mergedConsumed] <;>
      refine ⟨_, _, ⟨rfl, rfl⟩, ?_, ?_, ?_, ?_⟩ <;>
      first
      | (intro k2 hk; simp [Ne.symm hk])
      | simp
  · by_cases hu : s.updaterSet = true
    · by_cases hm : hasMultiPrecisionCopy s t = true <;>
        simp [applyUpdatesDefault, hn, runUpdaterStep, hu, hm, defaultAutoPull, ht,
          NDArray.isNone, mergedConsumed] <;>
        refine ⟨_, _, ⟨rfl, rfl⟩, ?_, ?_, ?_, ?_⟩ <;>
        first
        | (intro k2 hk; simp [Ne.symm hk])
        | simp
    · have hs : s.syncMode = true := by
        rcases hud with h | h
        · exact absurd h hu
        · exact h
      replace hu : s.updaterSet = false := by simpa using hu
      by_cases hm : hasMultiPrecisionCopy s t = true <;>
        simp [applyUpdatesDefault, hn, hs, runUpdaterStep, hu, hm, defaultAutoPull, ht,
          NDArray.isNone, mergedConsumed] <;>
        refine ⟨_, _, ⟨rfl, rfl⟩, ?_, ?_, ?_, ?_⟩ <;>
        first
        | (intro k2 hk; simp [Ne.symm hk])
        | simp

/-- C2: in sync mode, for every key, the merged buffer is consumed (the
optimizer applied, or the no-updater copy fallback) by a dispatcher
invocation if and only if the pending request list has size exactly the
worker count, and after such an application the pending list is empty.  This
holds for `ApplyUpdates` and for the TSEngine variant
`ApplyUpdatesDefault`. -/
theorem sync_barrier_consumes_merged (t : DataHandleType) (key : ℤ) (req : ReqMeta)
    (s : ServerState) (hsync : s.syncMode = true)
    (ht : t.requestType = RequestType.kDefaultPushPull) :
    (∃ s1 evs, applyUpdates t key s = .ok (s1, evs)
       ∧ (mergedConsumed evs = true ↔ (getBuf s key).request.length = s.numWorkers)
       ∧ (mergedConsumed evs = true → (getBuf s1 key).request = []))
  ∧ (∃ s1 evs, applyUpdatesDefault t key req s = .ok (s1, evs)
       ∧ (mergedConsumed evs = true ↔ (getBuf s key).request.length = s.numWorkers)
       ∧ (mergedConsumed evs = true → (getBuf s1 key).request = [])) := by
  constructor
  · by_cases hn : (getBuf s key).request.length = s.numWorkers
    · obtain ⟨s1, evs, h1, h2, h3, _⟩ :=
        applyUpdates_completed t key s (Or.inr hn) (Or.inr hsync)
      exact ⟨s1, evs, h1, ⟨fun _ => hn, fun _ => h2⟩, fun _ => h3⟩
    · refine ⟨s, [], applyUpdates_not_completed t key s hsync hn, ?_, ?_⟩
      · simp [mergedConsumed, hn]
      · intro h; simp [mergedConsumed] at h
  · by_cases hn : (getBuf s key).request.length = s.numWorkers
    · obtain ⟨s1, evs, h1, h2, h3, _⟩ :=
        applyUpdatesDefault_completed t key req s ht (Or.inr hn) (Or.inr hsync)
      exact ⟨s1, evs, h1, ⟨fun _ => hn, fun _ => h2⟩, fun _ => h3⟩
    · refine ⟨s, [], applyUpdatesDefault_not_completed t key req s hsync hn, ?_, ?_⟩
      · simp [mergedConsumed, hn]
      · intro h; simp [mergedConsumed] at h

/-- Witness for C2 at a concrete one-worker sync state with a full pending
list. -/
theorem sync_barrier_consumes_merged_witness :
    (∃ s1 evs, applyUpdates ⟨.kDefaultPushPull, 0⟩ 5 wstateC2 = .ok (s1, evs)
       ∧ (mergedConsumed evs = true ↔ (getBuf wstateC2 5).request.length = wstateC2.numWorkers)
       ∧ (mergedConsumed evs = true → (getBuf s1 5).request = []))
  ∧ (∃ s1 evs, applyUpdatesDefault ⟨.kDefaultPushPull, 0⟩ 5 {} wstateC2 = .ok (s1, evs)
       ∧ (mergedConsumed evs = true ↔ (getBuf wstateC2 5).request.length = wstateC2.numWorkers)
       ∧ (mergedConsumed evs = true → (getBuf s1 5).request = [])) :=
  sync_barrier_consumes_merged ⟨.kDefaultPushPull, 0⟩ 5 {} wstateC2 rfl rfl

/-- C3 counterexample: a completed sync-mode barrier invocation of
`ApplyUpdates` (the non-TSEngine update dispatcher) consumes the merged
buffer but leaves the key's version counter `store_v_` unchanged, refuting
the claim that every completed invocation increments it by exactly 1. -/
theorem version_not_incremented_counterexample :
    (applyUpdates ⟨.kDefaultPushPull, 0⟩ 5 wstateC2).toOption.map
        (fun p => (mergedConsumed p.2, getV p.1 5)) = some (true, 0)
    ∧ getV wstateC2 5 = 0
    ∧ wstateC2.syncMode = true
    ∧ (getBuf wstateC2 5).request.length = wstateC2.numWorkers := by
  decide

/-- C3 (amended): only the TSEngine dispatcher `ApplyUpdatesDefault`
increments the per-key version counter, by exactly 1 per completed
invocation and by nothing otherwise; `ApplyUpdates` leaves every version
counter unchanged even when it completes a sync-mode barrier. -/
theorem version_increment_only_in_tsengine (t : DataHandleType) (key : ℤ)
    (req : ReqMeta) (s : ServerState)
    (ht : t.requestType = RequestType.kDefaultPushPull)
    (hud : s.updaterSet = true ∨ s.syncMode = true) :
    (s.syncMode = true → (getBuf s key).request.length = s.numWorkers →
       ∃ s1 evs, applyUpdates t key s = .ok (s1, evs) ∧ mergedConsumed evs = true
         ∧ s1.storeV = s.storeV)
  ∧ ((s.syncMode = false ∨ (getBuf s key).request.length = s.numWorkers) →
       ∃ s1 evs, applyUpdatesDefault t key req s = .ok (s1, evs)
         ∧ getV s1 key = getV s key + 1 ∧ ∀ k2, k2 ≠ key → getV s1 k2 = getV s k2)
  ∧ (s.syncMode = true → (getBuf s key).request.length ≠ s.numWorkers →
       applyUpdatesDefault t key req s = .ok (s, [])) := by
  refine ⟨?_, ?_, ?_⟩
  · intro _ hn
    obtain ⟨s1, evs, h1, h2, _, h4⟩ :=
      applyUpdates_completed t key s (Or.inr hn) hud
    exact ⟨s1, evs, h1, h2, h4⟩
  · intro hcond
    obtain ⟨s1, evs, h1, _, _, h4, h5⟩ :=
      applyUpdatesDefault_completed t key req s ht hcond hud
    exact ⟨s1, evs, h1, h4, h5⟩
  · intro hsync hn
    exact applyUpdatesDefault_not_completed t key req s hsync hn

/-- Witness for the amended C3 at a concrete one-worker sync state. -/
theorem version_increment_only_in_tsengine_witness :
    ((wstateC2.syncMode = true → (getBuf wstateC2 5).request.length = wstateC2.numWorkers →
       ∃ s1 evs, applyUpdates ⟨.kDefaultPushPull, 0⟩ 5 wstateC2 = .ok (s1, evs)
         ∧ mergedConsumed evs = true ∧ s1.storeV = wstateC2.storeV)
  ∧ ((wstateC2.syncMode = false ∨ (getBuf wstateC2 5).request.length = wstateC2.numWorkers) →
       ∃ s1 evs, applyUpdatesDefault ⟨.kDefaultPushPull, 0⟩ 5 {} wstateC2 = .ok (s1, evs)
         ∧ getV s1 5 = getV wstateC2 5 + 1 ∧ ∀ k2, k2 ≠ 5 → getV s1 k2 = getV wstateC2 k2)
  ∧ (wstateC2.syncMode = true → (getBuf wstateC2 5).request.length ≠ wstateC2.numWorkers →
       applyUpdatesDefault ⟨.kDefaultPushPull, 0⟩ 5 {} wstateC2 = .ok (wstateC2, []))) :=
  version_increment_only_in_tsengine ⟨.kDefaultPushPull, 0⟩ 5 {} wstateC2 rfl (Or.inl rfl)

theorem createMPEntry_ok (s : ServerState) (k : ℤ) (nd : NDArray)
    (h : nd.dtype = kFloat32 ∨ (getBuf s k).request = []) :
    ∃ s1, createMPEntry s k nd = .ok s1
      ∧ (∀ k2, (getBuf s1 k2).request = (getBuf s k2).request)
      ∧ s1.store = s.store := by
  rcases h with h | h
  · exact ⟨s, by simp [createMPEntry, h], fun _ => rfl, rfl⟩
  · by_cases hdt : nd.dtype = kFloat32
    · exact ⟨s, by simp [createMPEntry, hdt], fun _ => rfl, rfl⟩
    · by_cases hmg : (getBuf s k).merged.isNone = true
      · cases hres : createMPEntry s k nd with
        | error e => simp [createMPEntry, hdt, hmg, h] at hres
        | ok s1 =>
          simp only [createMPEntry, hdt, hmg, h] at hres
          refine ⟨s1, rfl, ?_, ?_⟩
          · simp [h, hmg, hdt] at hres
            subst hres
            intro k2
            simp
          · simp [h, hmg, hdt] at hres
            subst hres
            simp
      · cases hres : createMPEntry s k nd with
        | error e => simp [createMPEntry, hdt, hmg, h] at hres
        | ok s1 =>
          simp only [createMPEntry, hdt, hmg, h] at hres
          refine ⟨s1, rfl, ?_, ?_⟩
          · simp [h, hmg, hdt] at hres
            subst hres
            intro k2
            by_cases hk : k = k2
            · subst hk
              simp [h]
            · simp [hk]
          · simp [h, hmg, hdt] at hres
            subst hres
            simp

theorem createMPEntry_error (s : ServerState) (k : ℤ) (nd : NDArray)
    (hdt : nd.dtype ≠ kFloat32) (hreq : (getBuf s k).request ≠ []) :
    createMPEntry s k nd = .error .ConfigurationRace := by
  by_cases hmg : (getBuf s k).merged.isNone = true <;>
    simp [createMPEntry, hdt, hmg, hreq]

theorem createMPGo_error_iff (l : List (ℤ × NDArray)) (s : ServerState) :
    createMPGo s l = .error .ConfigurationRace ↔
      ∃ p ∈ l, p.2.dtype ≠ kFloat32 ∧ (getBuf s p.1).request ≠ [] := by
  induction l generalizing s with
  | nil => simp [createMPGo]
  | cons hd tl ih =>
    obtain ⟨k, nd⟩ := hd
    by_cases hdt : nd.dtype = kFloat32
    · obtain ⟨s1, hok, hpres, _⟩ := createMPEntry_ok s k nd (Or.inl hdt)
      simp only [createMPGo, hok]
      rw [ih s1]
      simp [hdt, hpres]
    · by_cases hreq : (getBuf s k).request = []
      · obtain ⟨s1, hok, hpres, _⟩ := createMPEntry_ok s k nd (Or.inr hreq)
        simp only [createMPGo, hok]
        rw [ih s1]
        simp [hreq, hpres]
      · have herr : createMPGo s ((k, nd) :: tl) = .error .ConfigurationRace := by
          simp only [createMPGo, createMPEntry_error s k nd hdt hreq]
        rw [herr]
        constructor
        · intro _
          exact ⟨(k, nd), by simp, hdt, hreq⟩
        · intro _
          rfl

/-- C4 counterexample: a first-time `SetMultiPrecision` command processed
while key 0 (whose stored dtype is float32) has a nonempty pending request
list succeeds without any assertion and silently enables multi-precision,
refuting the claim that the server always fails loudly in that state. -/
theorem setMultiPrecision_no_assert_counterexample :
    (commandSetMultiPrecision wstateC4).toOption.map
        (fun s1 => (s1.multiPrecision, s1.updateBuf)) = some (true, wstateC4.updateBuf)
    ∧ (getBuf wstateC4 0).request ≠ [] := by
  decide

/-- C4 (amended): a first-time `SetMultiPrecision` trips the
ConfigurationRace assertion iff some stored key of non-float32 dtype has a
nonempty pending list; float32-dtyped keys are never inspected, so a pending
push on such a key lets the command silently enable multi-precision. -/
theorem setMultiPrecision_assert_iff (s : ServerState)
    (h : s.multiPrecision = false) :
    commandSetMultiPrecision s = .error .ConfigurationRace ↔
      ∃ p ∈ s.store, p.2.dtype ≠ kFloat32 ∧ (getBuf s p.1).request ≠ [] := by
  have hcmd : commandSetMultiPrecision s =
      createMultiPrecisionCopies { s with multiPrecision := true } := by
    simp [commandSetMultiPrecision, h]
  rw [hcmd, createMultiPrecisionCopies, createMPGo_error_iff]
  exact Iff.rfl

/-- Witness for the amended C4: at the float32-key state the assertion
condition is indeed absent on both sides of the equivalence. -/
theorem setMultiPrecision_assert_iff_witness :
    commandSetMultiPrecision wstateC4 = .error .ConfigurationRace ↔
      ∃ p ∈ wstateC4.store, p.2.dtype ≠ kFloat32 ∧ (getBuf wstateC4 p.1).request ≠ [] :=
  setMultiPrecision_assert_iff wstateC4 rfl

/-- C5 counterexample: in async mode with multi-precision on, an R = 0
row-sparse push on the initialized key 7 is acked but allocates the
`temp_array` staging tensor of the key's update buffer (source lines
735-738 run before the R = 0 ack), so stored state does change. -/
theorem rowsparse_zero_push_async_change_counterexample :
    (dataHandleRowSparsePush ⟨.kRowSparsePushPull, 2⟩ 7 0 0 [0] {} wstateC5).toOption.map
        (fun p => ((getBuf p.1 7).tempArray.isNone, p.2))
      = some (false, [Event.response {}])
    ∧ (getBuf wstateC5 7).tempArray.isNone = true
    ∧ wstateC5.syncMode = false := by
  decide

/-- C5 (amended): an R = 0 row-sparse push on an initialized key behaves as
follows.  Sync mode: the handler is exactly `ApplyUpdates` on the state
whose pending list is the old one with the request appended and whose
`merged` is reset to a fresh (all-zero) row-sparse buffer iff the request is
the cohort's first contribution.  Async mode: the request is acked
immediately and the update buffer is unchanged except that the
multi-precision staging tensor `temp_array` is lazily allocated when absent;
`store_`, `store_realt_`, `store_v_` and all other keys are untouched. -/
theorem rowsparse_zero_push_behavior (t : DataHandleType) (masterKey : ℤ)
    (recvId : ℕ) (lens : List ℤ) (req : ReqMeta) (s : ServerState)
    (hl0 : lens.getD 0 0 = 0) (hlen : lens.length ≠ 0)
    (hinit : (getStore s masterKey).isNone = false)
    (hminv : (getBuf s masterKey).merged.isNone = true →
      (getBuf s masterKey).request = []) :
    (s.syncMode = true →
      dataHandleRowSparsePush t masterKey 0 recvId lens req s =
        applyUpdates t masterKey (setBuf s masterKey
          { request := (getBuf s masterKey).request ++ [req]
            merged := (if (getBuf s masterKey).request = []
              then NDArray.alloc .rowSparseStorage (getStore s masterKey).shape true
                     (if hasMultiPrecisionCopy s t then kFloat32 else t.dtype)
              else (getBuf s masterKey).merged)
            tempArray := (if hasMultiPrecisionCopy s t
                  && (getBuf s masterKey).tempArray.isNone
              then NDArray.alloc .rowSparseStorage (getStore s masterKey).shape false kFloat32
              else (getBuf s masterKey).tempArray) }))
  ∧ (s.syncMode = false →
      dataHandleRowSparsePush t masterKey 0 recvId lens req s =
        .ok (setBuf s masterKey
          { request := (getBuf s masterKey).request
            merged := (getBuf s masterKey).merged
            tempArray := (if hasMultiPrecisionCopy s t
                  && (getBuf s masterKey).tempArray.isNone
              then NDArray.alloc .rowSparseStorage (getStore s masterKey).shape false kFloat32
              else (getBuf s masterKey).tempArray) }, [Event.response req])) := by
  have hl0g : lens[0]?.getD 0 = 0 := by simpa [List.getD] using hl0
  constructor
  · intro hsync
    by_cases hreq : (getBuf s masterKey).request = []
    · by_cases hmg : (getBuf s masterKey).merged.isNone = true <;>
        by_cases hmt : (hasMultiPrecisionCopy s t
            && (getBuf s masterKey).tempArray.isNone) = true <;>
        simp [dataHandleRowSparsePush, hl0g, hlen, hinit, hsync, hreq, hmg, hmt]
    · have hmg : (getBuf s masterKey).merged.isNone = false := by
        cases h : (getBuf s masterKey).merged.isNone
        · rfl
        · exact absurd (hminv h) hreq
      by_cases hmt : (hasMultiPrecisionCopy s t
          && (getBuf s masterKey).tempArray.isNone) = true <;>
        simp [dataHandleRowSparsePush, hl0g, hlen, hinit, hsync, hreq, hmg, hmt]
  · intro hsync
    by_cases hmt : (hasMultiPrecisionCopy s t
        && (getBuf s masterKey).tempArray.isNone) = true <;>
      simp [dataHandleRowSparsePush, hl0g, hlen, hinit, hsync, hmt]

/-- Witness for the amended C5 at the concrete async multi-precision
state. -/
theorem rowsparse_zero_push_behavior_witness :
    (wstateC5.syncMode = true →
      dataHandleRowSparsePush ⟨.kRowSparsePushPull, 2⟩ 7 0 0 [0] {} wstateC5 =
        applyUpdates ⟨.kRowSparsePushPull, 2⟩ 7 (setBuf wstateC5 7
          { request := (getBuf wstateC5 7).request ++ [{}]
            merged := (if (getBuf wstateC5 7).request = []
              then NDArray.alloc .rowSparseStorage (getStore wstateC5 7).shape true
                     (if hasMultiPrecisionCopy wstateC5 ⟨.kRowSparsePushPull, 2⟩ then kFloat32
                      else (2 : ℤ))
              else (getBuf wstateC5 7).merged)
            tempArray := (if hasMultiPrecisionCopy wstateC5 ⟨.kRowSparsePushPull, 2⟩
                  && (getBuf wstateC5 7).tempArray.isNone
              then NDArray.alloc .rowSparseStorage (getStore wstateC5 7).shape false kFloat32
              else (getBuf wstateC5 7).tempArray) }))
  ∧ (wstateC5.syncMode = false →
      dataHandleRowSparsePush ⟨.kRowSparsePushPull, 2⟩ 7 0 0 [0] {} wstateC5 =
        .ok (setBuf wstateC5 7
          { request := (getBuf wstateC5 7).request
            merged := (getBuf wstateC5 7).merged
            tempArray := (if hasMultiPrecisionCopy wstateC5 ⟨.kRowSparsePushPull, 2⟩
                  && (getBuf wstateC5 7).tempArray.isNone
              then NDArray.alloc .rowSparseStorage (getStore wstateC5 7).shape false kFloat32
              else (getBuf wstateC5 7).tempArray) }, [Event.response {}])) :=
  rowsparse_zero_push_behavior ⟨.kRowSparsePushPull, 2⟩ 7 0 [0] {} wstateC5 rfl
    (by decide) rfl (fun _ => rfl)

theorem decodeRequestType_val (r : RequestType) : decodeRequestType r.val = some r := by
  cases r <;> rfl

/-- C6: with the LeMethod environment flag set, every inbound data request
whose request type is row-sparse or compressed fails with UnsupportedMode,
and every dense push/pull request is accepted (routed without error),
whatever its control marker. -/
theorem lemethod_rejects_non_dense (d : ℕ) (cc : ControlCmd) :
    dataHandleEx true (GetCommandTypeR .kRowSparsePushPull d) cc = .error .UnsupportedMode
  ∧ dataHandleEx true (GetCommandTypeR .kCompressedPushPull d) cc = .error .UnsupportedMode
  ∧ ∃ disp, dataHandleEx true (GetCommandTypeR .kDefaultPushPull d) cc = .ok disp := by
  refine ⟨?_, ?_, ?_⟩
  · simp [dataHandleEx, GetCommandTypeR, depair_getCommandType, decodeRequestType_val]
  · simp [dataHandleEx, GetCommandTypeR, depair_getCommandType, decodeRequestType_val]
  · simp [dataHandleEx, GetCommandTypeR, depair_getCommandType, decodeRequestType_val]
    cases cc <;> exact ⟨_, rfl⟩

/-- C7: a pull on a key for which no push has ever occurred fails with
NotInitialized instead of producing any response: dense pulls through
`DefaultStorageResponse` (a never-pushed key's `store_[key]` entry is the
default none array), and row-sparse pulls requesting at least one row through
`RowSparsePullResponse`. -/
theorem pull_uninitialized_fails (t1 t2 : DataHandleType) (key rangeBegin masterKey : ℤ)
    (req : ReqMeta) (s : ServerState) (numRows : ℕ) (reqKeys : List ℤ)
    (hkey : getStore s key = NDArray.noneArr) (hnr : numRows ≠ 0) :
    defaultStorageResponse t1 key req s = .error .NotInitialized
  ∧ rowSparsePullResponse t2 rangeBegin masterKey numRows reqKeys none
      = .error .NotInitialized := by
  constructor
  · simp [defaultStorageResponse, hkey, NDArray.isNone]
  · simp [rowSparsePullResponse, hnr]

/-- Witness for C7 at the empty server state and a two-row pull. -/
theorem pull_uninitialized_fails_witness :
    defaultStorageResponse ⟨.kDefaultPushPull, 0⟩ 3 { } ({ } : ServerState)
        = .error .NotInitialized
  ∧ rowSparsePullResponse ⟨.kRowSparsePushPull, 0⟩ 0 100 2 [100, 101, 102] none
      = .error .NotInitialized :=
  pull_uninitialized_fails ⟨.kDefaultPushPull, 0⟩ ⟨.kRowSparsePushPull, 0⟩ 3 0 100 { }
    ({ } : ServerState) 2 [100, 101, 102] rfl (by decide)

theorem take_append_len (l1 l2 : List ℤ) (n : ℕ) (h : l1.length = n) :
    (l1 ++ l2).take n = l1 := by
  subst h
  induction l1 with
  | nil => simp
  | cons a l ih => simp [ih]

theorem drop_append_len (l1 l2 : List ℤ) (n m : ℕ) (h : l1.length = n) :
    (l1 ++ l2).drop (n + m) = l2.drop m := by
  subst h
  induction l1 with
  | nil => simp
  | cons a l ih => simpa [Nat.succ_add] using ih

theorem sliceBytes_length (data : List ℤ) (off u : ℕ) (h : off + u ≤ data.length) :
    (sliceBytes data off u).length = u := by
  simp only [sliceBytes, List.length_take, List.length_drop]
  omega

theorem gatherRows_app (data : List ℤ) (u : ℕ) (l1 l2 : List ℕ) :
    gatherRows data (l1 ++ l2) u = gatherRows data l1 u ++ gatherRows data l2 u := by
  induction l1 with
  | nil => simp [gatherRows]
  | cons o rest ih => simp [gatherRows, ih]

theorem gatherRows_length (data : List ℤ) (u : ℕ) (offs : List ℕ)
    (h : ∀ o ∈ offs, o + u ≤ data.length) :
    (gatherRows data offs u).length = offs.length * u := by
  induction offs with
  | nil => simp [gatherRows]
  | cons o rest ih =>
    have h1 : (sliceBytes data o u).length = u :=
      sliceBytes_length data o u (h o (by simp))
    have h2 := ih fun o2 ho => h o2 (by simp [ho])
    simp only [gatherRows, List.length_append, h1, h2, List.length_cons]
    ring

theorem drop_add_eq (l : List ℤ) (a b : ℕ) : l.drop (a + b) = (l.drop a).drop b := by
  induction a generalizing l with
  | zero => simp
  | succ a ih =>
    cases l with
    | nil => simp
    | cons x xs => simpa [Nat.succ_add] using ih xs

theorem fold_setSegment_eq_gather (data : List ℤ) (u : ℕ) (off : ℕ → ℕ) :
    ∀ (R : ℕ) (buf : List ℤ),
      (∀ j, j < R → off j + u ≤ data.length) → R * u ≤ buf.length →
      (List.range R).foldl (fun b j => setSegment b (j * u) (sliceBytes data (off j) u)) buf
        = gatherRows data ((List.range R).map off) u ++ buf.drop (R * u) := by
  intro R
  induction R with
  | zero => intro buf _ _; simp [gatherRows]
  | succ R ih =>
    intro buf hoff hlen
    have hsu : (R + 1) * u = R * u + u := by ring
    rw [List.range_succ, List.foldl_append, List.map_append,
      ih buf (fun j hj => hoff j (by omega)) (by omega)]
    have hGlen : (gatherRows data ((List.range R).map off) u).length = R * u := by
      rw [gatherRows_length data u _ ?_, List.length_map, List.length_range]
      intro o ho
      simp only [List.mem_map, List.mem_range] at ho
      obtain ⟨j, hj, rfl⟩ := ho
      exact hoff j (by omega)
    have hslen : (sliceBytes data (off R) u).length = u :=
      sliceBytes_length data (off R) u (hoff R (by omega))
    simp only [List.foldl_cons, List.foldl_nil, setSegment, hslen]
    rw [List.append_assoc, take_append_len _ _ _ hGlen, drop_append_len _ _ _ _ hGlen]
    rw [gatherRows_app]
    simp only [gatherRows, List.append_nil, hsu, drop_add_eq, List.append_assoc]

/-- C8: a row-sparse pull on an initialized key with R requested rows
(R > 0) responds with the concatenation, over the requested row keys, of the
`unit_len * sizeof(dtype)`-byte slice of the primary buffer at byte offset
`row_id * unit_len * sizeof(dtype)`; the lengths array has first entry 0
and every other entry `unit_len`; an R = 0 pull responds with all-zero
lengths. -/
theorem rowsparse_pull_gathers_rows (t : DataHandleType) (rangeBegin masterKey : ℤ)
    (numRows : ℕ) (reqKeys : List ℤ) (st : StoredView)
    (hnr : numRows ≠ 0) (hkeys : reqKeys.length = numRows + 1)
    (hb : ∀ j, j < numRows →
      (rspRowOffset rangeBegin masterKey reqKeys (rspUnitSize t st) (j + 1)).toNat
        + rspUnitSize t st ≤ st.bytes.length) :
    rowSparsePullResponse t rangeBegin masterKey numRows reqKeys (some st) =
      .ok { keys := reqKeys
            lens := 0 :: List.replicate numRows (unitLenOf st.shape)
            vals := gatherRows st.bytes
              ((List.range numRows).map fun j =>
                (rspRowOffset rangeBegin masterKey reqKeys (rspUnitSize t st) (j + 1)).toNat)
              (rspUnitSize t st) }
  ∧ rowSparsePullResponse t rangeBegin masterKey 0 reqKeys (some st) =
      .ok { keys := reqKeys, lens := List.replicate reqKeys.length 0, vals := [] } := by
  constructor
  · have hfold := fold_setSegment_eq_gather st.bytes (rspUnitSize t st)
      (fun j => (rspRowOffset rangeBegin masterKey reqKeys (rspUnitSize t st) (j + 1)).toNat)
      numRows (List.replicate (numRows * rspUnitSize t st) 0) hb (by simp)
    rcases reqKeys with _ | ⟨k0, rest⟩
    · exfalso
      rw [List.length_nil] at hkeys
      omega
    · have hrest : rest.length = numRows := by
        simpa using hkeys
      simp only [rowSparsePullResponse, hnr, if_false, rowSparsePullVals, rspUnitSize] at *
      rw [hfold]
      simp [hrest]
  · simp [rowSparsePullResponse]

/-- Witness for C8: a two-row pull (rows 1 then 0) of a `[2, 1]` float32
tensor whose byte buffer is `[10..13, 20..23]`. -/
theorem rowsparse_pull_gathers_rows_witness :
    rowSparsePullResponse ⟨.kRowSparsePushPull, 0⟩ 0 100 2 [100, 101, 100]
        (some ⟨[2, 1], [10, 11, 12, 13, 20, 21, 22, 23]⟩) =
      .ok { keys := [100, 101, 100]
            lens := 0 :: List.replicate 2 (unitLenOf ([2, 1] : List ℤ))
            vals := gatherRows [10, 11, 12, 13, 20, 21, 22, 23]
              ((List.range 2).map fun j =>
                (rspRowOffset 0 100 [100, 101, 100]
                  (rspUnitSize ⟨.kRowSparsePushPull, 0⟩ ⟨[2, 1], [10, 11, 12, 13, 20, 21, 22, 23]⟩)
                  (j + 1)).toNat)
              (rspUnitSize ⟨.kRowSparsePushPull, 0⟩ ⟨[2, 1], [10, 11, 12, 13, 20, 21, 22, 23]⟩) }
  ∧ rowSparsePullResponse ⟨.kRowSparsePushPull, 0⟩ 0 100 0 [100, 101, 100]
        (some ⟨[2, 1], [10, 11, 12, 13, 20, 21, 22, 23]⟩) =
      .ok { keys := [100, 101, 100], lens := List.replicate 3 0, vals := [] } :=
  rowsparse_pull_gathers_rows ⟨.kRowSparsePushPull, 0⟩ 0 100 2 [100, 101, 100]
    ⟨[2, 1], [10, 11, 12, 13, 20, 21, 22, 23]⟩ (by decide) (by decide) (by decide)

/-! ### Claim C9: the executor's Stop -/

/-- C9 counterexample: after one `Stop` completes (queue `[poison]`, its
block processed), a second `Stop` enqueues a second poison whose promise is
never fulfilled — `execReturns` fails at index 1 — so the second `Stop`
blocks forever instead of returning. -/
theorem stop_not_idempotent_counterexample :
    execReturns [ExecBlock.poison] 0
    ∧ ¬ execReturns [ExecBlock.poison, ExecBlock.poison] 1 := by
  constructor
  · simp [execReturns, processedBlocks]
  · simp [execReturns, processedBlocks]

/-- C9 (amended): `Stop` is not idempotent.  Once any poison block sits in
the queue prefix before position j (in particular once a first `Stop` has
completed), the block at position j is never processed, so the `Exec` call
that enqueued it — a second `Stop` included — never returns.  The executor
state is moot because the caller blocks forever. -/
theorem stop_after_stop_never_returns (q : List ExecBlock) (j : ℕ)
    (h : ExecBlock.poison ∈ q.take j) : ¬ execReturns q j := by
  induction q generalizing j with
  | nil => simp at h
  | cons b rest ih =>
    cases b with
    | poison =>
      cases j with
      | zero => simp at h
      | succ j2 =>
        simp [execReturns, processedBlocks]
    | task i =>
      cases j with
      | zero => simp at h
      | succ j2 =>
        have h2 : ExecBlock.poison ∈ rest.take j2 := by
          simpa [List.take_succ_cons] using h
        have h3 := ih j2 h2
        simp only [execReturns, processedBlocks, List.length_cons] at h3 ⊢
        omega

/-- Witness for the amended C9: the second poison of `[poison, poison]` is
behind the first one, so the second `Stop` never returns. -/
theorem stop_after_stop_never_returns_witness :
    ¬ execReturns [ExecBlock.poison, ExecBlock.poison] 1 :=
  stop_after_stop_never_returns [ExecBlock.poison, ExecBlock.poison] 1 (by decide)

/-! ### Claim C1: the model-distribution bandwidth -/

theorem ratTrunc_nonpos (q : ℚ) (h : q ≤ 0) : ratTrunc q ≤ 0 := by
  have hn : q.num ≤ 0 := Rat.num_nonpos.mpr h
  have h1 : ratTrunc q = -((-q.num).tdiv q.den) := by
    rw [ratTrunc, ← Int.neg_tdiv, neg_neg]
  rw [h1]
  have h2 : (0 : ℤ) ≤ (-q.num).tdiv q.den :=
    Int.tdiv_nonneg (by omega) (by exact_mod_cast Nat.zero_le q.den)
  omega

theorem ratTrunc_le_neg_one (q : ℚ) (h : q ≤ -1) : ratTrunc q ≤ -1 := by
  have hden : ((-1 : ℚ)).den = 1 := rfl
  have hnum : ((-1 : ℚ)).num = -1 := rfl
  have h1 := Rat.le_def.mp h
  rw [hden, hnum] at h1
  have hnn : q.num ≤ -(q.den : ℤ) := by omega
  have hdpos : (0 : ℤ) < (q.den : ℤ) := by exact_mod_cast q.pos
  have h2 : ratTrunc q = -((-q.num).tdiv q.den) := by
    rw [ratTrunc, ← Int.neg_tdiv, neg_neg]
  have h3 : (-q.num).tdiv q.den = (-q.num) / q.den :=
    Int.tdiv_eq_ediv (by omega) (by omega)
  have h4 : (1 : ℤ) ≤ (-q.num) / q.den := by
    rw [Int.le_ediv_iff_mul_le hdpos]
    omega
  rw [h2, h3]
  omega

theorem ratTrunc_eq_zero_of_neg_lt (q : ℚ) (h1 : -1 < q) (h2 : q ≤ 0) :
    ratTrunc q = 0 := by
  have hd : (0 : ℤ) < (q.den : ℤ) := by exact_mod_cast q.pos
  have hnum : q.num ≤ 0 := Rat.num_nonpos.mpr h2
  have hlow : -(q.den : ℤ) < q.num := by
    have h3 := Rat.lt_def.mp h1
    have h4 : ((-1 : ℚ)).num = -1 := rfl
    have h5 : ((-1 : ℚ)).den = 1 := rfl
    rw [h4, h5] at h3
    omega
  have h6 : ratTrunc q = -((-q.num).tdiv q.den) := by
    rw [ratTrunc, ← Int.neg_tdiv, neg_neg]
  have h7 : (-q.num).tdiv q.den = -q.num / q.den :=
    Int.tdiv_eq_ediv (by omega) (by omega)
  have h8 : -q.num / q.den = 0 := Int.ediv_eq_zero_of_lt (by omega) (by omega)
  rw [h6, h7, h8]
  rfl

theorem bandwidthOf_nonpos (t0 t1 : ℚ) (h : t0 ≤ t1) : bandwidthOf t0 t1 ≤ 0 := by
  apply ratTrunc_nonpos
  nlinarith

theorem bandwidthOf_neg (t0 t1 : ℚ) (h : t0 + 1 / 1000000 ≤ t1) :
    bandwidthOf t0 t1 < 0 := by
  have h1 : bandwidthOf t0 t1 ≤ -1 := by
    apply ratTrunc_le_neg_one
    nlinarith
  omega

theorem mdLoop_getElem_zero (QUIT : ℤ) (oracle : ℤ → ℤ → ℤ → ℤ)
    (times : ℕ → ℚ × ℚ) (iter : ℤ) (fuel : ℕ) (bw rcv : ℤ) (round : ℕ)
    (c : OracleCall)
    (h : (mdLoop QUIT oracle times iter fuel bw rcv round)[0]? = some c) :
    c.lastBandwidth = bw := by
  cases fuel with
  | zero => simp [mdLoop] at h
  | succ fuel2 =>
    by_cases hq : oracle bw rcv iter = QUIT <;>
      simp [mdLoop, hq] at h <;> simp [← h]

/-- C1 counterexample: a round trip whose reply arrives half a microsecond
after the send yields a bandwidth sample of 0 — the value passed to the
oracle on the next iteration is not negative even though the reply arrived
after the send (int truncation toward zero of -0.5 is 0). -/
theorem bandwidth_sign_counterexample :
    modelDistribution 9 (-1) (fun _ _ _ => 7) (fun _ => (0, 1 / 2000000)) 0 2
      = [⟨-1, -1, 1⟩, ⟨0, 7, 1⟩]
    ∧ ((0 : ℚ) < 1 / 2000000)
    ∧ ¬ (bandwidthOf 0 (1 / 2000000) < 0) := by
  have hval : ((0 : ℚ) - 1 / 2000000) * 1000000 = -(1 / 2) := by norm_num
  have hb : bandwidthOf 0 (1 / 2000000) = 0 := by
    rw [bandwidthOf, hval]
    exact ratTrunc_eq_zero_of_neg_lt _ (by norm_num) (by norm_num)
  have hb2 : bandwidthOf 0 (2000000 : ℚ)⁻¹ = 0 := by
    rw [← one_div]
    exact hb
  refine ⟨?_, by norm_num, by rw [hb]; decide⟩
  simp [modelDistribution, mdLoop, hb, hb2]

/-- C1 (amended): in the model-distribution loop, the bandwidth value passed
to the receiver-picking oracle on each iteration after the first equals the
previous round trip's `(start - end)` duration scaled to microseconds and
truncated toward zero; it is non-positive whenever the reply arrived at or
after the send, and strictly negative whenever the round trip lasted at
least one microsecond (sub-microsecond round trips truncate to 0, not to a
negative value). -/
theorem mdLoop_next_bandwidth (QUIT : ℤ) (oracle : ℤ → ℤ → ℤ → ℤ)
    (times : ℕ → ℚ × ℚ) (iter : ℤ) :
    ∀ (fuel : ℕ) (bw rcv : ℤ) (round i : ℕ) (c : OracleCall),
      (mdLoop QUIT oracle times iter fuel bw rcv round)[i + 1]? = some c →
      c.lastBandwidth = bandwidthOf (times (round + i)).1 (times (round + i)).2
      ∧ ((times (round + i)).1 ≤ (times (round + i)).2 → c.lastBandwidth ≤ 0)
      ∧ ((times (round + i)).1 + 1 / 1000000 ≤ (times (round + i)).2 →
          c.lastBandwidth < 0) := by
  intro fuel
  induction fuel with
  | zero =>
    intro bw rcv round i c h
    simp [mdLoop] at h
  | succ fuel2 ih =>
    intro bw rcv round i c h
    by_cases hq : oracle bw rcv iter = QUIT
    · simp [mdLoop, hq] at h
    · simp only [mdLoop, hq, if_false, List.getElem?_cons_succ] at h
      cases i with
      | zero =>
        have hbw := mdLoop_getElem_zero QUIT oracle times iter fuel2
          (bandwidthOf (times round).1 (times round).2) (oracle bw rcv iter)
          (round + 1) c h
        refine ⟨by simpa using hbw, ?_, ?_⟩
        · intro hle
          rw [hbw]
          exact bandwidthOf_nonpos _ _ (by simpa using hle)
        · intro hlt
          rw [hbw]
          exact bandwidthOf_neg _ _ (by simpa using hlt)
      | succ i2 =>
        have h2 := ih (bandwidthOf (times round).1 (times round).2)
          (oracle bw rcv iter) (round + 1) i2 c h
        have hadd : round + 1 + i2 = round + (i2 + 1) := by omega
        rw [hadd] at h2
        exact h2

/-- Witness for the amended C1: a three-second round trip produces the
bandwidth sample -3000000 on the next oracle call. -/
theorem mdLoop_next_bandwidth_witness :
    (⟨-3000000, 7, 1⟩ : OracleCall).lastBandwidth = bandwidthOf 0 3
    ∧ ((0 : ℚ) ≤ 3 → (⟨-3000000, 7, 1⟩ : OracleCall).lastBandwidth ≤ 0)
    ∧ ((0 : ℚ) + 1 / 1000000 ≤ 3 →
        (⟨-3000000, 7, 1⟩ : OracleCall).lastBandwidth < 0) :=
  mdLoop_next_bandwidth 9 (fun _ _ _ => 7) (fun _ => (0, 3)) 1 2 (-1) (-1) 0 0
    ⟨-3000000, 7, 1⟩ (by
      have hval : ((0 : ℚ) - 3) * 1000000 = -3000000 := by norm_num
      have hb : bandwidthOf 0 3 = -3000000 := by
        rw [bandwidthOf, hval]
        rfl
      simp [mdLoop, hb])

end MxKV
